import Mathlib

/-!
# autopgp: a shallow embedding of `autopgp.go`

`autopgp.go` is a single `main` that loads an armored public key, reads a
plaintext file, picks a cipher/hash policy from the `-compat` flag, encrypts
through `golang.org/x/crypto/openpgp`, and writes the ciphertext.

The embedding has two layers.

* The pure part (`cipherToCipherNameMapping`, `cipherIdToString`, the policy
  assignment of lines 79-86) is translated directly.
* `main` is translated as a function of the command-line arguments and of a
  `World`, which fixes the outcome of every call that leaves the program
  (file system, armor decoding, key parsing, the encryptor).  The function
  returns the sequence of statements with an observable effect (`Event`), the
  final contents of the in-memory `bytes.Buffer`, and the exit status.

Identifiers of the libraries used by the program (`packet.Cipher3DES`,
`crypto.SHA1`, `Config.Cipher`, `s2k.HashToHashId`, ...) are not part of the
repository.  They are modelled with the values and the behaviour they have in
`golang.org/x/crypto/openpgp` and `crypto`, which follow RFC 4880 section 9,
and each such definition says so.
-/

namespace AutoPGP

/-! ## Library types and constants used by the program -/

/-- Byte strings (`[]byte`), one natural number below 256 per byte. -/
abbrev Bytes := List Nat

/-- Go's `packet.CipherFunction` (a `uint8`). -/
abbrev CipherFunction := Nat

/-- Go's `crypto.Hash` (a `uint`). -/
abbrev Hash := Nat

/-- Modelled from the spec: the identifier of 3DES.  `packet.Cipher3DES` is
declared by the library `golang.org/x/crypto/openpgp/packet`, which is not
under src/; the value is the one the library gives it (RFC 4880, 9.2). -/
def packet.Cipher3DES : CipherFunction := 2
/-- Modelled from the spec: the identifier of CAST5, the library constant
`packet.CipherCAST5` (RFC 4880, 9.2). -/
def packet.CipherCAST5 : CipherFunction := 3
/-- Modelled from the spec: the identifier of AES-128, the library constant
`packet.CipherAES128` (RFC 4880, 9.2). -/
def packet.CipherAES128 : CipherFunction := 7
/-- Modelled from the spec: the identifier of AES-192, the library constant
`packet.CipherAES192` (RFC 4880, 9.2). -/
def packet.CipherAES192 : CipherFunction := 8
/-- Modelled from the spec: the identifier of AES-256, the library constant
`packet.CipherAES256` (RFC 4880, 9.2). -/
def packet.CipherAES256 : CipherFunction := 9

/-- Modelled from the spec: a hash identifier of the standard package
`crypto`, which is not under src/.  `crypto.Hash` numbers its constants from
1 in the order MD4, MD5, SHA1, SHA224, SHA256, SHA384, SHA512, MD5SHA1,
RIPEMD160. -/
def crypto.MD5 : Hash := 2
/-- Modelled from the spec: the identifier of SHA-1, the constant `crypto.SHA1`. -/
def crypto.SHA1 : Hash := 3
/-- Modelled from the spec: the constant `crypto.SHA224`. -/
def crypto.SHA224 : Hash := 4
/-- Modelled from the spec: the constant `crypto.SHA256`. -/
def crypto.SHA256 : Hash := 5
/-- Modelled from the spec: the constant `crypto.SHA384`. -/
def crypto.SHA384 : Hash := 6
/-- Modelled from the spec: the identifier of SHA-512, the constant
`crypto.SHA512`. -/
def crypto.SHA512 : Hash := 7
/-- Modelled from the spec: the constant `crypto.RIPEMD160`. -/
def crypto.RIPEMD160 : Hash := 9

/-- Modelled from the spec: the cipher policy, a pair of a symmetric
algorithm identifier and a hash algorithm identifier.  These are the two
fields of the library type `packet.Config` that `main` assigns; its other
fields keep their zero value throughout and are not read by the program. -/
structure packet.Config where
  DefaultHash : Hash := 0
  DefaultCipher : CipherFunction := 0
  deriving DecidableEq, Repr

/-- Modelled from the spec: the collaborator call `resolve_applied_cipher`,
the library method `(*packet.Config).Cipher`, which is not under src/.  It
returns the configured cipher, and the library default AES-128 when
`DefaultCipher` is zero. -/
def packet.Config.Cipher (c : packet.Config) : CipherFunction :=
  if c.DefaultCipher = 0 then packet.CipherAES128 else c.DefaultCipher

/-- Modelled from the spec: the collaborator call `resolve_applied_hash`, the
library method `(*packet.Config).Hash`, which is not under src/.  It returns
the configured hash, and the library default SHA-256 when `DefaultHash` is
zero. -/
def packet.Config.Hash (c : packet.Config) : Hash :=
  if c.DefaultHash = 0 then crypto.SHA256 else c.DefaultHash

/-- Modelled from the spec: one row of the library table
`s2k.hashToHashIdMapping`, which is not under src/. -/
structure s2k.HashRow where
  id : Nat
  hash : Hash
  name : String
  deriving DecidableEq, Repr

/-- Modelled from the spec: the table behind the resolved hash name, the
library table `s2k.hashToHashIdMapping` of `golang.org/x/crypto/openpgp/s2k`:
OpenPGP hash identifier (RFC 4880, 9.4), `crypto.Hash`, display name. -/
def s2k.hashToHashIdMapping : List s2k.HashRow :=
  [ ⟨1, crypto.MD5, "MD5"⟩,
    ⟨2, crypto.SHA1, "SHA1"⟩,
    ⟨3, crypto.RIPEMD160, "RIPEMD160"⟩,
    ⟨8, crypto.SHA256, "SHA256"⟩,
    ⟨9, crypto.SHA384, "SHA384"⟩,
    ⟨10, crypto.SHA512, "SHA512"⟩,
    ⟨11, crypto.SHA224, "SHA224"⟩ ]

/-- Modelled from the spec: the library function `s2k.HashToHashId`, which is
not under src/.  It scans the table for the first row with the given hash
and returns its identifier and true, or 0 and false. -/
def s2k.HashToHashId (h : Hash) : Nat × Bool :=
  match s2k.hashToHashIdMapping.find? (fun m => m.hash = h) with
  | some m => (m.id, true)
  | none => (0, false)

/-- Modelled from the spec: the library function `s2k.HashIdToString`, which
is not under src/.  It scans the table for the first row with the given
identifier and returns its name and true, or the empty string and false. -/
def s2k.HashIdToString (id : Nat) : String × Bool :=
  match s2k.hashToHashIdMapping.find? (fun m => m.id = id) with
  | some m => (m.name, true)
  | none => ("", false)

/-! ## The cipher-name table (lines 21-40) -/

/-- Element type of `cipherToCipherNameMapping`. -/
structure CipherRow where
  id : CipherFunction
  name : String
  deriving DecidableEq, Repr

/-- The table of lines 21-30. -/
def cipherToCipherNameMapping : List CipherRow :=
  [ ⟨packet.Cipher3DES, "3DES"⟩,
    ⟨packet.CipherCAST5, "CAST5"⟩,
    ⟨packet.CipherAES128, "AES"⟩,
    ⟨packet.CipherAES192, "AES192"⟩,
    ⟨packet.CipherAES256, "AES256"⟩ ]

/-- The loop of lines 33-39 over an arbitrary table: return the name of the
first row whose id matches, the empty string when the loop runs out. -/
def scanMapping : List CipherRow → CipherFunction → String
  | [], _ => ""
  | m :: rest, id => if m.id = id then m.name else scanMapping rest id

/-- Go's `cipherIdToString` (lines 32-40). -/
def cipherIdToString (id : CipherFunction) : String :=
  scanMapping cipherToCipherNameMapping id

/-- The reference table of the specification, written out by identifier:
the five known ciphers get their display name, every other identifier the
empty string. -/
def canonicalCipherName : CipherFunction → String
  | 2 => "3DES"
  | 3 => "CAST5"
  | 7 => "AES"
  | 8 => "AES192"
  | 9 => "AES256"
  | _ => ""

/-! ## The policy assignment (lines 79-86) -/

/-- Lines 79-86: `cfg` starts as the zero `packet.Config` and receives its
two fields from the branch on `*compatPtr`. -/
def selectPolicy (compat : Bool) : packet.Config :=
  let cfg : packet.Config := {}
  if compat == true then
    { cfg with DefaultCipher := packet.Cipher3DES, DefaultHash := crypto.SHA1 }
  else
    { cfg with DefaultCipher := packet.CipherAES256, DefaultHash := crypto.SHA512 }

/-! ## The environment of a run -/

/-- The parsed flags (lines 43-47). -/
structure Args where
  compat : Bool := false
  key : String := ""
  input : String := ""
  output : String := ""
  deriving DecidableEq, Repr

/-- An `*openpgp.Entity`, of which the program reads the primary key's
fingerprint only. -/
structure Entity where
  fingerprint : Bytes
  deriving DecidableEq, Repr

/-- Go's `openpgp.FileHints`, with the two fields of lines 88-91. -/
structure FileHints where
  IsBinary : Bool
  FileName : String
  deriving DecidableEq, Repr

/-- An open `*os.File`. -/
abbrev Handle := Nat

/-- The `io.WriteCloser` returned by `openpgp.Encrypt`. -/
abbrev Stream := Nat

/-- The outcome of every call that leaves the program.  An error is the text
of the Go `error`.  The three encryptor calls also say which bytes they
appended to the `bytes.Buffer` they were given, error or not. -/
structure World where
  -- Go's `os.Open`.
  osOpen : String → Except String Handle
  -- Go's `armor.Decode`, followed by `packet.NewReader` on the block's body.
  armorDecode : Handle → Except String Bytes
  -- Go's `openpgp.ReadEntity`.
  readEntity : Bytes → Except String Entity
  -- Go's `ioutil.ReadFile`.
  readFile : String → Except String Bytes
  -- Go's `filepath.Base`.
  filepathBase : String → String
  -- Go's `openpgp.Encrypt`: recipients, signer, hints, config.
  encrypt : List Entity → Option Entity → FileHints → packet.Config →
    Bytes × Except String Stream
  -- Method `Write` of the encryption stream.
  encWrite : Stream → Bytes → Bytes × Option String
  -- Method `Close` of the encryption stream.
  encClose : Stream → Bytes × Option String
  -- Go's `ioutil.WriteFile`: path, data, permission.
  writeFile : String → Bytes → Nat → Option String

/-- The statements of `main` that have an effect, in the order they run. -/
inductive Event where
  | osOpen (path : String)
  | armorDecode (f : Handle)
  | readEntity (body : Bytes)
  | logPrintf (format : String) (arg : Bytes)
  | logPrintln (args : List String)
  | readFile (path : String)
  -- The assignment to `cfg` of lines 79-86.
  | setConfig (cfg : packet.Config)
  | encrypt (recipients : List Entity) (signed : Option Entity) (hints : FileHints)
      (cfg : packet.Config)
  | encWrite (s : Stream) (data : Bytes)
  | encClose (s : Stream)
  | writeFile (path : String) (data : Bytes) (perm : Nat)
  -- Go's `log.Panic(err)`: prints the error and panics.
  | logPanic (err : String)
  -- The deferred `armoredKeyFile.Close()` of line 54.
  | fileClose (f : Handle)
  deriving DecidableEq, Repr

/-- What a run of `main` leaves behind: the effects in order, the final
contents of the buffer `encrypted`, and the exit status of the process (0
when `main` returns, 2 when it panics). -/
structure Run where
  trace : List Event
  encrypted : Bytes
  status : Nat
  deriving DecidableEq, Repr

/-- Lines 56-119, the part of `main` that runs with the deferred close of the
key file pending.  Every `log.Panic` ends this part with status 2. -/
def mainBody (w : World) (a : Args) (armoredKeyFile : Handle) : Run :=
  let t := [Event.armorDecode armoredKeyFile]
  match w.armorDecode armoredKeyFile with
  | .error err => ⟨t ++ [.logPanic err], [], 2⟩
  | .ok decodedKeyFileReader =>
  let t := t ++ [.readEntity decodedKeyFileReader]
  match w.readEntity decodedKeyFileReader with
  | .error err => ⟨t ++ [.logPanic err], [], 2⟩
  | .ok decodedKey =>
  let t := t ++ [.logPrintf "Using public key with fingerprint %X\n" decodedKey.fingerprint]
  let encrypted : Bytes := []
  let t := t ++ [.readFile a.input]
  match w.readFile a.input with
  | .error err => ⟨t ++ [.logPanic err], encrypted, 2⟩
  | .ok content =>
  let t := t ++ [.logPrintln ["Encrypting plaintext file", a.input]]
  let cfg := selectPolicy a.compat
  let t := t ++ [.setConfig cfg]
  let fh : FileHints := { IsBinary := true, FileName := w.filepathBase a.input }
  let t := t ++ [.encrypt [decodedKey] none fh cfg]
  let opened := w.encrypt [decodedKey] none fh cfg
  let encrypted := encrypted ++ opened.1
  match opened.2 with
  | .error err => ⟨t ++ [.logPanic err], encrypted, 2⟩
  | .ok enc =>
  let hashId := (s2k.HashToHashId cfg.Hash).1
  let hashName := (s2k.HashIdToString hashId).1
  let cipherName := cipherIdToString cfg.Cipher
  let t := t ++ [.logPrintln ["Using hash", hashName]]
  let t := t ++ [.logPrintln ["Using cipher", cipherName]]
  let t := t ++ [.encWrite enc content]
  let written := w.encWrite enc content
  let encrypted := encrypted ++ written.1
  match written.2 with
  | some err => ⟨t ++ [.logPanic err], encrypted, 2⟩
  | none =>
  let t := t ++ [.encClose enc]
  let encrypted := encrypted ++ (w.encClose enc).1
  let t := t ++ [.writeFile a.output encrypted 0o400]
  match w.writeFile a.output encrypted 0o400 with
  | some err => ⟨t ++ [.logPanic err], encrypted, 2⟩
  | none => ⟨t ++ [.logPrintln ["Wrote ciphertext file", a.output]], encrypted, 0⟩

/-- Go's `main` (lines 42-120).  When `os.Open` fails nothing is deferred yet;
afterwards the deferred `armoredKeyFile.Close()` runs when `main` returns and
also when it panics. -/
def main (w : World) (a : Args) : Run :=
  match w.osOpen a.key with
  | .error err => ⟨[.osOpen a.key, .logPanic err], [], 2⟩
  | .ok armoredKeyFile =>
    let r := mainBody w a armoredKeyFile
    { r with trace := .osOpen a.key :: r.trace ++ [.fileClose armoredKeyFile] }

/-! ## Vocabulary for statements about runs -/

/-- The six steps of the pipeline named by the specification. -/
inductive Step where
  | loadKey
  | readPlaintext
  | selectPolicy
  | encrypt
  | finalize
  | writeOutput
  deriving DecidableEq, Repr

/-- The pipeline step an event belongs to.  Log lines, the panic and the
deferred close of the key file belong to no step. -/
def Event.step : Event → Option Step
  | .osOpen _ => some .loadKey
  | .armorDecode _ => some .loadKey
  | .readEntity _ => some .loadKey
  | .readFile _ => some .readPlaintext
  | .setConfig _ => some .selectPolicy
  | .encrypt _ _ _ _ => some .encrypt
  | .encWrite _ _ => some .encrypt
  | .encClose _ => some .finalize
  | .writeFile _ _ _ => some .writeOutput
  | .logPrintf _ _ => none
  | .logPrintln _ => none
  | .logPanic _ => none
  | .fileClose _ => none

/-- Recognises a call of `ioutil.WriteFile`. -/
def Event.isWriteFile : Event → Bool
  | .writeFile _ _ _ => true
  | _ => false

/-- Recognises a close of the key file. -/
def Event.isFileClose : Event → Bool
  | .fileClose _ => true
  | _ => false

/-- Recognises a call of `openpgp.Encrypt`. -/
def Event.isEncrypt : Event → Bool
  | .encrypt _ _ _ _ => true
  | _ => false

/-- Recognises a call of `Write` on the encryption stream. -/
def Event.isEncWrite : Event → Bool
  | .encWrite _ _ => true
  | _ => false

/-- The hints of lines 88-91. -/
def hintsOf (w : World) (a : Args) : FileHints :=
  { IsBinary := true, FileName := w.filepathBase a.input }

/-- The hash name of lines 98-99 for a given config. -/
def hashNameOf (cfg : packet.Config) : String :=
  (s2k.HashIdToString (s2k.HashToHashId cfg.Hash).1).1

/-- The events of a run up to and including the read of the plaintext. -/
def loadedTrace (a : Args) (f : Handle) (body : Bytes) (key : Entity) : List Event :=
  [.osOpen a.key, .armorDecode f, .readEntity body,
   .logPrintf "Using public key with fingerprint %X\n" key.fingerprint,
   .readFile a.input]

/-- The events from the progress line of line 76 to the call of
`openpgp.Encrypt`. -/
def openTrace (w : World) (a : Args) (key : Entity) : List Event :=
  [.logPrintln ["Encrypting plaintext file", a.input],
   .setConfig (selectPolicy a.compat),
   .encrypt [key] none (hintsOf w a) (selectPolicy a.compat)]

/-- The events from the two algorithm lines of lines 101-102 to `enc.Write`. -/
def writeTrace (a : Args) (enc : Stream) (content : Bytes) : List Event :=
  [.logPrintln ["Using hash", hashNameOf (selectPolicy a.compat)],
   .logPrintln ["Using cipher", cipherIdToString (selectPolicy a.compat).Cipher],
   .encWrite enc content]

/-- The buffer `encrypted` after `enc.Close`: what the three encryptor calls
appended, in order. -/
def closedBuffer (w : World) (a : Args) (key : Entity) (enc : Stream) (content : Bytes) :
    Bytes :=
  (w.encrypt [key] none (hintsOf w a) (selectPolicy a.compat)).1 ++ (w.encWrite enc content).1 ++
    (w.encClose enc).1

/-! ## Concrete environments -/

/-- A world in which every call succeeds; the encryptor emits a one-byte
header, the plaintext shifted by one, and a one-byte trailer. -/
def goodWorld : World where
  osOpen := fun _ => .ok 3
  armorDecode := fun _ => .ok [153, 1]
  readEntity := fun _ => .ok ⟨[171, 205]⟩
  readFile := fun _ => .ok [104, 105]
  filepathBase := fun p => p
  encrypt := fun _ _ _ _ => ([193], .ok 1)
  encWrite := fun _ d => (d.map (fun b => (b + 1) % 256), none)
  encClose := fun _ => ([211], none)
  writeFile := fun _ _ _ => none

/-- As `goodWorld`, except that closing the encryption stream fails before
the trailer is flushed. -/
def closeFailsWorld : World :=
  { goodWorld with encClose := fun _ => ([], some "short write") }

/-- As `goodWorld`, except that the call numbered `step` fails: 1 `os.Open`,
2 `armor.Decode`, 3 `openpgp.ReadEntity`, 4 `ioutil.ReadFile`,
5 `openpgp.Encrypt`, 6 `enc.Write`, 7 `ioutil.WriteFile`. -/
def failingWorld (step : Nat) : World where
  osOpen := fun p => if step = 1 then .error "no such file" else goodWorld.osOpen p
  armorDecode := fun f => if step = 2 then .error "EOF" else goodWorld.armorDecode f
  readEntity := fun b => if step = 3 then .error "bad packet" else goodWorld.readEntity b
  readFile := fun p => if step = 4 then .error "no such file" else goodWorld.readFile p
  filepathBase := goodWorld.filepathBase
  encrypt := fun r s h c =>
    if step = 5 then ([], .error "unsupported key") else goodWorld.encrypt r s h c
  encWrite := fun s d => if step = 6 then ([], some "short write") else goodWorld.encWrite s d
  encClose := goodWorld.encClose
  writeFile := fun p d m =>
    if step = 7 then some "permission denied" else goodWorld.writeFile p d m

/-- The arguments `-key k.asc -input msg.txt -output msg.gpg`. -/
def sampleArgs : Args := { key := "k.asc", input := "msg.txt", output := "msg.gpg" }

/-! ## Lemmas on the table scan and on the shape of a run -/

theorem scanMapping_of_mem (t : List CipherRow) (hn : (t.map CipherRow.id).Nodup)
    (m : CipherRow) (hm : m ∈ t) : scanMapping t m.id = m.name := by
  induction t with
  | nil => simp at hm
  | cons x rest ih =>
    rw [List.map_cons, List.nodup_cons] at hn
    rcases List.mem_cons.mp hm with h | h
    · subst h; simp [scanMapping]
    · have hne : x.id ≠ m.id := by
        intro he
        exact hn.1 (he ▸ List.mem_map_of_mem CipherRow.id h)
      simp [scanMapping, hne, ih hn.2 h]

theorem scanMapping_of_not_mem (t : List CipherRow) (id : CipherFunction)
    (h : id ∉ t.map CipherRow.id) : scanMapping t id = "" := by
  induction t with
  | nil => rfl
  | cons x rest ih =>
    simp only [List.map_cons, List.mem_cons, not_or] at h
    simp [scanMapping, Ne.symm h.1, ih h.2]

theorem scanMapping_perm (t t' : List CipherRow) (hn : (t.map CipherRow.id).Nodup)
    (hp : t'.Perm t) (id : CipherFunction) : scanMapping t' id = scanMapping t id := by
  have hn' : (t'.map CipherRow.id).Nodup := (hp.map CipherRow.id).nodup_iff.mpr hn
  by_cases hmem : id ∈ t.map CipherRow.id
  · obtain ⟨m, hm, rfl⟩ := List.mem_map.mp hmem
    rw [scanMapping_of_mem t hn m hm, scanMapping_of_mem t' hn' m (hp.mem_iff.mpr hm)]
  · have hmem' : id ∉ t'.map CipherRow.id := fun h => hmem ((hp.map CipherRow.id).mem_iff.mp h)
    rw [scanMapping_of_not_mem t id hmem, scanMapping_of_not_mem t' id hmem']

theorem cipherIdToString_eq_canonical (id : CipherFunction) :
    cipherIdToString id = canonicalCipherName id := by
  by_cases h2 : id = 2
  · subst h2; rfl
  by_cases h3 : id = 3
  · subst h3; rfl
  by_cases h7 : id = 7
  · subst h7; rfl
  by_cases h8 : id = 8
  · subst h8; rfl
  by_cases h9 : id = 9
  · subst h9; rfl
  have hs : cipherIdToString id = "" := by
    simp [cipherIdToString, cipherToCipherNameMapping, scanMapping, packet.Cipher3DES,
      packet.CipherCAST5, packet.CipherAES128, packet.CipherAES192, packet.CipherAES256,
      Ne.symm h2, Ne.symm h3, Ne.symm h7, Ne.symm h8, Ne.symm h9]
  rw [hs]
  unfold canonicalCipherName
  split <;> first | rfl | contradiction



theorem except_cases {ε α : Type} (x : Except ε α) :
    (∃ e, x = .error e) ∨ (∃ v, x = .ok v) := by
  cases x with
  | error e => exact Or.inl ⟨e, rfl⟩
  | ok v => exact Or.inr ⟨v, rfl⟩

theorem option_cases {α : Type} (x : Option α) : x = none ∨ ∃ v, x = some v := by
  cases x with
  | none => exact Or.inl rfl
  | some v => exact Or.inr ⟨v, rfl⟩

theorem main_cases (w : World) (a : Args) :
    (∃ e, w.osOpen a.key = .error e ∧
      main w a = ⟨[.osOpen a.key, .logPanic e], [], 2⟩) ∨
    (∃ f e, w.osOpen a.key = .ok f ∧ w.armorDecode f = .error e ∧
      main w a = ⟨[.osOpen a.key, .armorDecode f, .logPanic e, .fileClose f], [], 2⟩) ∨
    (∃ f body e, w.osOpen a.key = .ok f ∧ w.armorDecode f = .ok body ∧
      w.readEntity body = .error e ∧
      main w a = ⟨[.osOpen a.key, .armorDecode f, .readEntity body, .logPanic e,
        .fileClose f], [], 2⟩) ∨
    (∃ f body key e, w.osOpen a.key = .ok f ∧ w.armorDecode f = .ok body ∧
      w.readEntity body = .ok key ∧ w.readFile a.input = .error e ∧
      main w a = ⟨loadedTrace a f body key ++ [.logPanic e, .fileClose f], [], 2⟩) ∨
    (∃ f body key content e, w.osOpen a.key = .ok f ∧ w.armorDecode f = .ok body ∧
      w.readEntity body = .ok key ∧ w.readFile a.input = .ok content ∧
      (w.encrypt [key] none (hintsOf w a) (selectPolicy a.compat)).2 = .error e ∧
      main w a = ⟨loadedTrace a f body key ++ openTrace w a key ++ [.logPanic e, .fileClose f],
        (w.encrypt [key] none (hintsOf w a) (selectPolicy a.compat)).1, 2⟩) ∨
    (∃ f body key content enc e, w.osOpen a.key = .ok f ∧ w.armorDecode f = .ok body ∧
      w.readEntity body = .ok key ∧ w.readFile a.input = .ok content ∧
      (w.encrypt [key] none (hintsOf w a) (selectPolicy a.compat)).2 = .ok enc ∧
      (w.encWrite enc content).2 = some e ∧
      main w a = ⟨loadedTrace a f body key ++ openTrace w a key ++ writeTrace a enc content ++
          [.logPanic e, .fileClose f],
        (w.encrypt [key] none (hintsOf w a) (selectPolicy a.compat)).1 ++
          (w.encWrite enc content).1, 2⟩) ∨
    (∃ f body key content enc e, w.osOpen a.key = .ok f ∧ w.armorDecode f = .ok body ∧
      w.readEntity body = .ok key ∧ w.readFile a.input = .ok content ∧
      (w.encrypt [key] none (hintsOf w a) (selectPolicy a.compat)).2 = .ok enc ∧
      (w.encWrite enc content).2 = none ∧
      w.writeFile a.output (closedBuffer w a key enc content) 0o400 = some e ∧
      main w a = ⟨loadedTrace a f body key ++ openTrace w a key ++ writeTrace a enc content ++
          [.encClose enc, .writeFile a.output (closedBuffer w a key enc content) 0o400,
           .logPanic e, .fileClose f],
        closedBuffer w a key enc content, 2⟩) ∨
    (∃ f body key content enc, w.osOpen a.key = .ok f ∧ w.armorDecode f = .ok body ∧
      w.readEntity body = .ok key ∧ w.readFile a.input = .ok content ∧
      (w.encrypt [key] none (hintsOf w a) (selectPolicy a.compat)).2 = .ok enc ∧
      (w.encWrite enc content).2 = none ∧
      w.writeFile a.output (closedBuffer w a key enc content) 0o400 = none ∧
      main w a = ⟨loadedTrace a f body key ++ openTrace w a key ++ writeTrace a enc content ++
          [.encClose enc, .writeFile a.output (closedBuffer w a key enc content) 0o400,
           .logPrintln ["Wrote ciphertext file", a.output], .fileClose f],
        closedBuffer w a key enc content, 0⟩) := by
  rcases except_cases (w.osOpen a.key) with ⟨e, h1⟩ | ⟨f, h1⟩
  · left; exact ⟨e, h1, by simp [main, h1]⟩
  right
  rcases except_cases (w.armorDecode f) with ⟨e, h2⟩ | ⟨body, h2⟩
  · left; exact ⟨f, e, h1, h2, by simp [main, mainBody, h1, h2]⟩
  right
  rcases except_cases (w.readEntity body) with ⟨e, h3⟩ | ⟨key, h3⟩
  · left; exact ⟨f, body, e, h1, h2, h3, by simp [main, mainBody, h1, h2, h3]⟩
  right
  rcases except_cases (w.readFile a.input) with ⟨e, h4⟩ | ⟨content, h4⟩
  · left
    exact ⟨f, body, key, e, h1, h2, h3, h4, by simp [main, mainBody, h1, h2, h3, h4, loadedTrace]⟩
  right
  rcases except_cases (w.encrypt [key] none (hintsOf w a) (selectPolicy a.compat)).2 with
    ⟨e, h5⟩ | ⟨enc, h5⟩
  · left; refine ⟨f, body, key, content, e, h1, h2, h3, h4, h5, ?_⟩
    simp only [hintsOf] at h5
    simp [main, mainBody, h1, h2, h3, h4, h5, loadedTrace, openTrace, hintsOf]
  right
  rcases option_cases (w.encWrite enc content).2 with h6 | ⟨e, h6⟩
  swap
  · left; refine ⟨f, body, key, content, enc, e, h1, h2, h3, h4, h5, h6, ?_⟩
    simp only [hintsOf] at h5
    simp [main, mainBody, h1, h2, h3, h4, h5, h6, loadedTrace, openTrace, writeTrace, hintsOf,
      hashNameOf]
  right
  rcases option_cases (w.writeFile a.output (closedBuffer w a key enc content) 0o400) with
    h7 | ⟨e, h7⟩
  · right; refine ⟨f, body, key, content, enc, h1, h2, h3, h4, h5, h6, h7, ?_⟩
    simp only [hintsOf, closedBuffer, List.append_assoc] at h5 h7
    simp [main, mainBody, h1, h2, h3, h4, h5, h6, h7, loadedTrace, openTrace, writeTrace,
      hintsOf, closedBuffer, hashNameOf]
  · left; refine ⟨f, body, key, content, enc, e, h1, h2, h3, h4, h5, h6, h7, ?_⟩
    simp only [hintsOf, closedBuffer, List.append_assoc] at h5 h7
    simp [main, mainBody, h1, h2, h3, h4, h5, h6, h7, loadedTrace, openTrace, writeTrace,
      hintsOf, closedBuffer, hashNameOf]

/-! ## Claims about the pure part -/

/-- C1: the policy chosen by `main` is a total function of the compat flag
alone.  With compat set the configured pair is (3DES, SHA-1), otherwise it is
(AES-256, SHA-512); the config that a run assigns and the config it hands to
`openpgp.Encrypt` is that pair whatever the world and the three paths are, so
two runs with the same flag never differ in it. -/
theorem policy_is_function_of_compat (w : World) (a : Args) :
    selectPolicy true =
      { DefaultCipher := packet.Cipher3DES, DefaultHash := crypto.SHA1 } ∧
    selectPolicy false =
      { DefaultCipher := packet.CipherAES256, DefaultHash := crypto.SHA512 } ∧
    (∀ cfg, Event.setConfig cfg ∈ (main w a).trace →
      cfg = selectPolicy a.compat ∧
      ((cfg.DefaultCipher, cfg.DefaultHash) = (packet.Cipher3DES, crypto.SHA1) ∨
       (cfg.DefaultCipher, cfg.DefaultHash) = (packet.CipherAES256, crypto.SHA512))) ∧
    (∀ r s h cfg, Event.encrypt r s h cfg ∈ (main w a).trace → cfg = selectPolicy a.compat) ∧
    (∀ (w' : World) (a' : Args), a'.compat = a.compat →
      ∀ cfg cfg', Event.setConfig cfg ∈ (main w a).trace →
        Event.setConfig cfg' ∈ (main w' a').trace → cfg' = cfg) := by
  have key : ∀ (w : World) (a : Args) (cfg : packet.Config),
      Event.setConfig cfg ∈ (main w a).trace → cfg = selectPolicy a.compat := by
    intro w a cfg hmem
    rcases main_cases w a with ⟨e, _, h⟩ | ⟨f, e, _, _, h⟩ | ⟨f, b, e, _, _, _, h⟩ |
      ⟨f, b, k, e, _, _, _, _, h⟩ | ⟨f, b, k, c, e, _, _, _, _, _, h⟩ |
      ⟨f, b, k, c, enc, e, _, _, _, _, _, _, h⟩ |
      ⟨f, b, k, c, enc, e, _, _, _, _, _, _, _, h⟩ |
      ⟨f, b, k, c, enc, _, _, _, _, _, _, _, h⟩ <;>
    · rw [h] at hmem
      simp [loadedTrace, openTrace, writeTrace] at hmem <;> exact hmem
  refine ⟨rfl, rfl, ?_, ?_, ?_⟩
  · intro cfg hmem
    have hc := key w a cfg hmem
    refine ⟨hc, ?_⟩
    subst hc
    cases a.compat
    · right; rfl
    · left; rfl
  · intro r s hh cfg hmem
    rcases main_cases w a with ⟨e, _, h⟩ | ⟨f, e, _, _, h⟩ | ⟨f, b, e, _, _, _, h⟩ |
      ⟨f, b, k, e, _, _, _, _, h⟩ | ⟨f, b, k, c, e, _, _, _, _, _, h⟩ |
      ⟨f, b, k, c, enc, e, _, _, _, _, _, _, h⟩ |
      ⟨f, b, k, c, enc, e, _, _, _, _, _, _, _, h⟩ |
      ⟨f, b, k, c, enc, _, _, _, _, _, _, _, h⟩ <;>
    · rw [h] at hmem
      simp [loadedTrace, openTrace, writeTrace] at hmem
      try exact hmem.2.2.2
  · intro w' a' hc cfg cfg' hmem hmem'
    rw [key w a cfg hmem, key w' a' cfg' hmem', hc]

/-- The default run assigns the modern pair, as C1 says of every run. -/
theorem policy_is_function_of_compat_witness :
    (⟨crypto.SHA512, packet.CipherAES256⟩ : packet.Config) = selectPolicy sampleArgs.compat :=
  ((policy_is_function_of_compat goodWorld sampleArgs).2.2.1 ⟨crypto.SHA512, packet.CipherAES256⟩
    (by decide)).1

/-- C2: `cipherIdToString` is total and agrees with the reference table: the
five known ciphers map to "3DES", "CAST5", "AES", "AES192" and "AES256", and
every other identifier maps to the empty string. -/
theorem cipherIdToString_table :
    cipherIdToString packet.Cipher3DES = "3DES" ∧
    cipherIdToString packet.CipherCAST5 = "CAST5" ∧
    cipherIdToString packet.CipherAES128 = "AES" ∧
    cipherIdToString packet.CipherAES192 = "AES192" ∧
    cipherIdToString packet.CipherAES256 = "AES256" ∧
    (∀ id, cipherIdToString id = canonicalCipherName id) ∧
    (∀ id, id ∉ cipherToCipherNameMapping.map CipherRow.id → cipherIdToString id = "") :=
  ⟨rfl, rfl, rfl, rfl, rfl, cipherIdToString_eq_canonical,
    fun id h => scanMapping_of_not_mem cipherToCipherNameMapping id h⟩

/-- Identifier 1 (IDEA) is not in the table and gets the empty name. -/
theorem cipherIdToString_table_witness : cipherIdToString 1 = "" :=
  cipherIdToString_table.2.2.2.2.2.2 1 (by decide)

/-- C10: the table has pairwise distinct identifiers and pairwise distinct,
non-empty names.  Hence the result is empty exactly for identifiers outside
the table, scanning any reordering of the table gives the same result, and
`cipherIdToString` is injective on the identifiers of the table. -/
theorem cipher_table_is_a_bijection :
    (cipherToCipherNameMapping.map CipherRow.id).Nodup ∧
    (cipherToCipherNameMapping.map CipherRow.name).Nodup ∧
    (∀ m ∈ cipherToCipherNameMapping, m.name ≠ "") ∧
    (∀ id, cipherIdToString id = "" ↔ id ∉ cipherToCipherNameMapping.map CipherRow.id) ∧
    (∀ t : List CipherRow, t.Perm cipherToCipherNameMapping →
      ∀ id, scanMapping t id = cipherIdToString id) ∧
    (∀ x ∈ cipherToCipherNameMapping.map CipherRow.id,
      ∀ y ∈ cipherToCipherNameMapping.map CipherRow.id,
        cipherIdToString x = cipherIdToString y → x = y) := by
  have hid : (cipherToCipherNameMapping.map CipherRow.id).Nodup := by decide
  have hname : (cipherToCipherNameMapping.map CipherRow.name).Nodup := by decide
  have hne : ∀ m ∈ cipherToCipherNameMapping, m.name ≠ "" := by decide
  refine ⟨hid, hname, hne, ?_, ?_, ?_⟩
  · intro id
    constructor
    · intro hempty hmem
      obtain ⟨m, hm, rfl⟩ := List.mem_map.mp hmem
      have := scanMapping_of_mem cipherToCipherNameMapping hid m hm
      exact hne m hm (this ▸ hempty)
    · exact scanMapping_of_not_mem cipherToCipherNameMapping id
  · intro t hp id
    exact scanMapping_perm cipherToCipherNameMapping t hid hp id
  · intro x hx y hy hxy
    obtain ⟨m, hm, rfl⟩ := List.mem_map.mp hx
    obtain ⟨n, hn, rfl⟩ := List.mem_map.mp hy
    unfold cipherIdToString at hxy
    rw [scanMapping_of_mem _ hid m hm, scanMapping_of_mem _ hid n hn] at hxy
    have hinj : ∀ m ∈ cipherToCipherNameMapping, ∀ n ∈ cipherToCipherNameMapping,
        m.name = n.name → m.id = n.id := by decide
    exact hinj m hm n hn hxy

/-- Scanning the reversed table finds AES-192 under the same name. -/
theorem cipher_table_is_a_bijection_witness :
    scanMapping cipherToCipherNameMapping.reverse packet.CipherAES192 =
      cipherIdToString packet.CipherAES192 :=
  cipher_table_is_a_bijection.2.2.2.2.1 cipherToCipherNameMapping.reverse
    (List.reverse_perm _) packet.CipherAES192

/-- C5: the names `main` logs are those of the selected policy.  With compat
set the cipher name is "3DES" and the hash name "SHA1", otherwise "AES256"
and "SHA512".  The selected config has no zero field, so `Config.Cipher` and
`Config.Hash` return the configured values and not the library defaults, both
lookups of the hash succeed, and the cipher name is not empty.  Every
"Using cipher" and "Using hash" line of a run carries these names. -/
theorem logged_names_follow_policy (w : World) (a : Args) :
    cipherIdToString (selectPolicy true).Cipher = "3DES" ∧
    hashNameOf (selectPolicy true) = "SHA1" ∧
    cipherIdToString (selectPolicy false).Cipher = "AES256" ∧
    hashNameOf (selectPolicy false) = "SHA512" ∧
    (∀ c : Bool,
      (selectPolicy c).DefaultCipher ≠ 0 ∧ (selectPolicy c).DefaultHash ≠ 0 ∧
      (selectPolicy c).Cipher = (selectPolicy c).DefaultCipher ∧
      (selectPolicy c).Hash = (selectPolicy c).DefaultHash ∧
      (s2k.HashToHashId (selectPolicy c).Hash).2 = true ∧
      (s2k.HashIdToString (s2k.HashToHashId (selectPolicy c).Hash).1).2 = true ∧
      cipherIdToString (selectPolicy c).Cipher ≠ "") ∧
    (∀ n, Event.logPrintln ["Using cipher", n] ∈ (main w a).trace →
      n = cipherIdToString (selectPolicy a.compat).Cipher ∧
      n = (if a.compat then "3DES" else "AES256") ∧ n ≠ "") ∧
    (∀ n, Event.logPrintln ["Using hash", n] ∈ (main w a).trace →
      n = hashNameOf (selectPolicy a.compat) ∧
      n = (if a.compat then "SHA1" else "SHA512")) := by
  refine ⟨by decide, by decide, by decide, by decide, by decide, ?_, ?_⟩
  · intro n hmem
    have hn : n = cipherIdToString (selectPolicy a.compat).Cipher := by
      rcases main_cases w a with ⟨e, _, h⟩ | ⟨f, e, _, _, h⟩ | ⟨f, b, e, _, _, _, h⟩ |
        ⟨f, b, k, e, _, _, _, _, h⟩ | ⟨f, b, k, c, e, _, _, _, _, _, h⟩ |
        ⟨f, b, k, c, enc, e, _, _, _, _, _, _, h⟩ |
        ⟨f, b, k, c, enc, e, _, _, _, _, _, _, _, h⟩ |
        ⟨f, b, k, c, enc, _, _, _, _, _, _, _, h⟩ <;>
      · rw [h] at hmem
        simp [loadedTrace, openTrace, writeTrace] at hmem <;> exact hmem
    subst hn
    refine ⟨rfl, ?_, ?_⟩ <;> cases a.compat <;> decide
  · intro n hmem
    have hn : n = hashNameOf (selectPolicy a.compat) := by
      rcases main_cases w a with ⟨e, _, h⟩ | ⟨f, e, _, _, h⟩ | ⟨f, b, e, _, _, _, h⟩ |
        ⟨f, b, k, e, _, _, _, _, h⟩ | ⟨f, b, k, c, e, _, _, _, _, _, h⟩ |
        ⟨f, b, k, c, enc, e, _, _, _, _, _, _, h⟩ |
        ⟨f, b, k, c, enc, e, _, _, _, _, _, _, _, h⟩ |
        ⟨f, b, k, c, enc, _, _, _, _, _, _, _, h⟩ <;>
      · rw [h] at hmem
        simp [loadedTrace, openTrace, writeTrace] at hmem <;> exact hmem
    subst hn
    refine ⟨rfl, ?_⟩
    cases a.compat <;> decide

/-- The compat run logs "3DES". -/
theorem logged_names_follow_policy_witness :
    "3DES" = cipherIdToString (selectPolicy true).Cipher :=
  ((logged_names_follow_policy goodWorld { sampleArgs with compat := true }).2.2.2.2.2.1 "3DES"
    (by decide)).1

/-! ## Claims about runs of `main` -/

/-- C3 (the code departs from the claim): in `closeFailsWorld` the call
`enc.Close()` returns an error, and the run still writes the buffer, without
the trailer, to the output path and ends with status 0. -/
theorem close_error_is_ignored :
    (closeFailsWorld.encClose 1).2 = some "short write" ∧
    main closeFailsWorld sampleArgs =
      { trace :=
          [.osOpen "k.asc", .armorDecode 3, .readEntity [153, 1],
           .logPrintf "Using public key with fingerprint %X\n" [171, 205],
           .readFile "msg.txt",
           .logPrintln ["Encrypting plaintext file", "msg.txt"],
           .setConfig ⟨crypto.SHA512, packet.CipherAES256⟩,
           .encrypt [⟨[171, 205]⟩] none ⟨true, "msg.txt"⟩ ⟨crypto.SHA512, packet.CipherAES256⟩,
           .logPrintln ["Using hash", "SHA512"],
           .logPrintln ["Using cipher", "AES256"],
           .encWrite 1 [104, 105],
           .encClose 1,
           .writeFile "msg.gpg" [193, 105, 106] 0o400,
           .logPrintln ["Wrote ciphertext file", "msg.gpg"],
           .fileClose 3],
        encrypted := [193, 105, 106],
        status := 0 } ∧
    Event.writeFile "msg.gpg" [193, 105, 106] 0o400 ∈ (main closeFailsWorld sampleArgs).trace ∧
    (main closeFailsWorld sampleArgs).status = 0 := by
  refine ⟨rfl, ?_, ?_, ?_⟩ <;> decide

/-- C4: a failure of `os.Open`, `armor.Decode`, `openpgp.ReadEntity`,
`ioutil.ReadFile`, `openpgp.Encrypt` or `enc.Write` ends the run at that call
with status 2.  The trace stops at the failing call, followed only by the
panic and, once the key file is open, its deferred close; no later step runs
and `ioutil.WriteFile` is never called. -/
theorem main_aborts_at_first_failure (w : World) (a : Args) :
    (∀ e, w.osOpen a.key = .error e →
      (main w a).trace = [.osOpen a.key, .logPanic e] ∧
      (main w a).status = 2 ∧ (main w a).trace.filter Event.isWriteFile = []) ∧
    (∀ f e, w.osOpen a.key = .ok f → w.armorDecode f = .error e →
      (main w a).trace = [.osOpen a.key, .armorDecode f, .logPanic e, .fileClose f] ∧
      (main w a).status = 2 ∧ (main w a).trace.filter Event.isWriteFile = []) ∧
    (∀ f body e, w.osOpen a.key = .ok f → w.armorDecode f = .ok body →
      w.readEntity body = .error e →
      (main w a).trace =
        [.osOpen a.key, .armorDecode f, .readEntity body, .logPanic e, .fileClose f] ∧
      (main w a).status = 2 ∧ (main w a).trace.filter Event.isWriteFile = []) ∧
    (∀ f body key e, w.osOpen a.key = .ok f → w.armorDecode f = .ok body →
      w.readEntity body = .ok key → w.readFile a.input = .error e →
      (main w a).trace =
        [.osOpen a.key, .armorDecode f, .readEntity body,
         .logPrintf "Using public key with fingerprint %X\n" key.fingerprint,
         .readFile a.input, .logPanic e, .fileClose f] ∧
      (main w a).status = 2 ∧ (main w a).trace.filter Event.isWriteFile = []) ∧
    (∀ f body key content e, w.osOpen a.key = .ok f → w.armorDecode f = .ok body →
      w.readEntity body = .ok key → w.readFile a.input = .ok content →
      (w.encrypt [key] none ⟨true, w.filepathBase a.input⟩ (selectPolicy a.compat)).2 =
        .error e →
      (main w a).trace =
        [.osOpen a.key, .armorDecode f, .readEntity body,
         .logPrintf "Using public key with fingerprint %X\n" key.fingerprint,
         .readFile a.input,
         .logPrintln ["Encrypting plaintext file", a.input],
         .setConfig (selectPolicy a.compat),
         .encrypt [key] none ⟨true, w.filepathBase a.input⟩ (selectPolicy a.compat),
         .logPanic e, .fileClose f] ∧
      (main w a).status = 2 ∧ (main w a).trace.filter Event.isWriteFile = []) ∧
    (∀ f body key content enc e, w.osOpen a.key = .ok f → w.armorDecode f = .ok body →
      w.readEntity body = .ok key → w.readFile a.input = .ok content →
      (w.encrypt [key] none ⟨true, w.filepathBase a.input⟩ (selectPolicy a.compat)).2 =
        .ok enc →
      (w.encWrite enc content).2 = some e →
      (main w a).trace =
        [.osOpen a.key, .armorDecode f, .readEntity body,
         .logPrintf "Using public key with fingerprint %X\n" key.fingerprint,
         .readFile a.input,
         .logPrintln ["Encrypting plaintext file", a.input],
         .setConfig (selectPolicy a.compat),
         .encrypt [key] none ⟨true, w.filepathBase a.input⟩ (selectPolicy a.compat),
         .logPrintln ["Using hash", hashNameOf (selectPolicy a.compat)],
         .logPrintln ["Using cipher", cipherIdToString (selectPolicy a.compat).Cipher],
         .encWrite enc content,
         .logPanic e, .fileClose f] ∧
      (main w a).status = 2 ∧ (main w a).trace.filter Event.isWriteFile = []) := by
  refine ⟨?_, ?_, ?_, ?_, ?_, ?_⟩
  · intro e h1
    simp [main, h1, Event.isWriteFile]
  · intro f e h1 h2
    simp [main, mainBody, h1, h2, Event.isWriteFile]
  · intro f body e h1 h2 h3
    simp [main, mainBody, h1, h2, h3, Event.isWriteFile]
  · intro f body key e h1 h2 h3 h4
    simp [main, mainBody, h1, h2, h3, h4, Event.isWriteFile]
  · intro f body key content e h1 h2 h3 h4 h5
    simp [main, mainBody, h1, h2, h3, h4, h5, Event.isWriteFile]
  · intro f body key content enc e h1 h2 h3 h4 h5 h6
    simp [main, mainBody, h1, h2, h3, h4, h5, h6, Event.isWriteFile, hashNameOf]

/-- Each of the six failures, in a world that fails at that call only: the
run has status 2 and never calls `ioutil.WriteFile`. -/
theorem main_aborts_at_first_failure_witness :
    ((main (failingWorld 1) sampleArgs).trace = [.osOpen "k.asc", .logPanic "no such file"] ∧
      (main (failingWorld 1) sampleArgs).status = 2 ∧
      (main (failingWorld 1) sampleArgs).trace.filter Event.isWriteFile = []) ∧
    ((main (failingWorld 2) sampleArgs).status = 2 ∧
      (main (failingWorld 2) sampleArgs).trace.filter Event.isWriteFile = []) ∧
    ((main (failingWorld 3) sampleArgs).status = 2 ∧
      (main (failingWorld 3) sampleArgs).trace.filter Event.isWriteFile = []) ∧
    ((main (failingWorld 4) sampleArgs).status = 2 ∧
      (main (failingWorld 4) sampleArgs).trace.filter Event.isWriteFile = []) ∧
    ((main (failingWorld 5) sampleArgs).status = 2 ∧
      (main (failingWorld 5) sampleArgs).trace.filter Event.isWriteFile = []) ∧
    ((main (failingWorld 6) sampleArgs).status = 2 ∧
      (main (failingWorld 6) sampleArgs).trace.filter Event.isWriteFile = []) :=
  ⟨(main_aborts_at_first_failure (failingWorld 1) sampleArgs).1 "no such file" rfl,
   ((main_aborts_at_first_failure (failingWorld 2) sampleArgs).2.1 3 "EOF" rfl rfl).2,
   ((main_aborts_at_first_failure (failingWorld 3) sampleArgs).2.2.1 3 [153, 1] "bad packet"
      rfl rfl rfl).2,
   ((main_aborts_at_first_failure (failingWorld 4) sampleArgs).2.2.2.1 3 [153, 1] ⟨[171, 205]⟩
      "no such file" rfl rfl rfl rfl).2,
   ((main_aborts_at_first_failure (failingWorld 5) sampleArgs).2.2.2.2.1 3 [153, 1]
      ⟨[171, 205]⟩ [104, 105] "unsupported key" rfl rfl rfl rfl rfl).2,
   ((main_aborts_at_first_failure (failingWorld 6) sampleArgs).2.2.2.2.2 3 [153, 1]
      ⟨[171, 205]⟩ [104, 105] 1 "short write" rfl rfl rfl rfl rfl rfl).2⟩

/-- C6: every call of `ioutil.WriteFile` made by a run passes the mode 0400:
owner-read set, every other bit of the nine clear.  A run in which every
call before it succeeds does make that call, on the output path. -/
theorem output_mode_is_owner_read_only (w : World) (a : Args) :
    (∀ path data perm, Event.writeFile path data perm ∈ (main w a).trace →
      path = a.output ∧ perm = 0o400 ∧ perm < 2 ^ 9 ∧
      perm &&& 0o377 = 0 ∧ perm &&& 0o400 = 0o400) ∧
    (∀ f body key content enc, w.osOpen a.key = .ok f → w.armorDecode f = .ok body →
      w.readEntity body = .ok key → w.readFile a.input = .ok content →
      (w.encrypt [key] none ⟨true, w.filepathBase a.input⟩ (selectPolicy a.compat)).2 =
        .ok enc →
      (w.encWrite enc content).2 = none →
      (main w a).trace.filter Event.isWriteFile =
        [.writeFile a.output (closedBuffer w a key enc content) 0o400]) := by
  constructor
  · intro path data perm hmem
    have hp : path = a.output ∧ perm = 0o400 := by
      rcases main_cases w a with ⟨e, _, h⟩ | ⟨f, e, _, _, h⟩ | ⟨f, b, e, _, _, _, h⟩ |
        ⟨f, b, k, e, _, _, _, _, h⟩ | ⟨f, b, k, c, e, _, _, _, _, _, h⟩ |
        ⟨f, b, k, c, enc, e, _, _, _, _, _, _, h⟩ |
        ⟨f, b, k, c, enc, e, _, _, _, _, _, _, _, h⟩ |
        ⟨f, b, k, c, enc, _, _, _, _, _, _, _, h⟩ <;>
      · rw [h] at hmem
        simp [loadedTrace, openTrace, writeTrace] at hmem <;> exact ⟨hmem.1, hmem.2.2⟩
    obtain ⟨hpath, hperm⟩ := hp
    subst hperm
    exact ⟨hpath, rfl, by decide, by decide, by decide⟩
  · intro f body key content enc h1 h2 h3 h4 h5 h6
    cases h7 : w.writeFile a.output
        ((w.encrypt [key] none ⟨true, w.filepathBase a.input⟩ (selectPolicy a.compat)).1 ++
          ((w.encWrite enc content).1 ++ (w.encClose enc).1)) 0o400 <;>
      simp [main, mainBody, h1, h2, h3, h4, h5, h6, h7, Event.isWriteFile, closedBuffer, hintsOf]

/-- The default run writes with mode 0400, which has only the owner-read bit. -/
theorem output_mode_is_owner_read_only_witness :
    "msg.gpg" = sampleArgs.output ∧ 0o400 = 0o400 ∧ 0o400 < 2 ^ 9 ∧
      0o400 &&& 0o377 = 0 ∧ 0o400 &&& 0o400 = 0o400 :=
  (output_mode_is_owner_read_only goodWorld sampleArgs).1 "msg.gpg" [193, 105, 106, 211] 0o400
    (by decide)

/-- C7: once `os.Open` has returned the key file, every run closes it exactly
once, as its last event, whether the run succeeds or a later call fails; no
other handle is closed. -/
theorem key_file_closed_exactly_once (w : World) (a : Args) (f : Handle)
    (hopen : w.osOpen a.key = .ok f) :
    (main w a).trace.filter Event.isFileClose = [.fileClose f] ∧
    (main w a).trace.getLast? = some (.fileClose f) ∧
    (main w a).trace.count (.fileClose f) = 1 := by
  rcases main_cases w a with ⟨e, h1, h⟩ | ⟨f', e, h1, _, h⟩ | ⟨f', b, e, h1, _, _, h⟩ |
    ⟨f', b, k, e, h1, _, _, _, h⟩ | ⟨f', b, k, c, e, h1, _, _, _, _, h⟩ |
    ⟨f', b, k, c, enc, e, h1, _, _, _, _, _, h⟩ |
    ⟨f', b, k, c, enc, e, h1, _, _, _, _, _, _, h⟩ |
    ⟨f', b, k, c, enc, h1, _, _, _, _, _, _, h⟩
  · rw [hopen] at h1; cases h1
  all_goals
    rw [hopen] at h1
    cases h1
    rw [h]
    simp [loadedTrace, openTrace, writeTrace, Event.isFileClose, List.getLast?_cons_cons,
      List.count_cons]

/-- The key file is closed once both when the run succeeds and when the
plaintext cannot be read. -/
theorem key_file_closed_exactly_once_witness :
    ((main goodWorld sampleArgs).trace.filter Event.isFileClose = [.fileClose 3] ∧
      (main goodWorld sampleArgs).trace.getLast? = some (.fileClose 3) ∧
      (main goodWorld sampleArgs).trace.count (.fileClose 3) = 1) ∧
    ((main (failingWorld 4) sampleArgs).trace.filter Event.isFileClose = [.fileClose 3] ∧
      (main (failingWorld 4) sampleArgs).trace.getLast? = some (.fileClose 3) ∧
      (main (failingWorld 4) sampleArgs).trace.count (.fileClose 3) = 1) :=
  ⟨key_file_closed_exactly_once goodWorld sampleArgs 3 rfl,
   key_file_closed_exactly_once (failingWorld 4) sampleArgs 3 rfl⟩

/-- C8: a run that reaches the encryption step calls `openpgp.Encrypt`
exactly once, with the parsed entity as the only recipient, no signer, hints
with `IsBinary` true and `FileName` the base name of the input path, and the
selected policy.  When the encryptor opens, the run calls `Write` on the
stream exactly once, with the whole plaintext read from the input file. -/
theorem encryptor_called_once_with_policy (w : World) (a : Args) (f : Handle) (body : Bytes)
    (key : Entity) (content : Bytes)
    (hopen : w.osOpen a.key = .ok f) (hdecode : w.armorDecode f = .ok body)
    (hparse : w.readEntity body = .ok key) (hread : w.readFile a.input = .ok content) :
    (main w a).trace.filter Event.isEncrypt =
      [.encrypt [key] none { IsBinary := true, FileName := w.filepathBase a.input }
        (selectPolicy a.compat)] ∧
    (∀ enc,
      (w.encrypt [key] none { IsBinary := true, FileName := w.filepathBase a.input }
        (selectPolicy a.compat)).2 = .ok enc →
      (main w a).trace.filter Event.isEncWrite = [.encWrite enc content]) := by
  constructor
  · rcases except_cases
      (w.encrypt [key] none ⟨true, w.filepathBase a.input⟩ (selectPolicy a.compat)).2 with
      ⟨e, h5⟩ | ⟨enc, h5⟩
    · simp [main, mainBody, hopen, hdecode, hparse, hread, h5, Event.isEncrypt]
    · rcases option_cases (w.encWrite enc content).2 with h6 | ⟨e, h6⟩
      · cases h7 : w.writeFile a.output
          ((w.encrypt [key] none ⟨true, w.filepathBase a.input⟩ (selectPolicy a.compat)).1 ++
            ((w.encWrite enc content).1 ++ (w.encClose enc).1)) 0o400 <;>
        simp [main, mainBody, hopen, hdecode, hparse, hread, h5, h6, h7, Event.isEncrypt]
      · simp [main, mainBody, hopen, hdecode, hparse, hread, h5, h6, Event.isEncrypt]
  · intro enc h5
    rcases option_cases (w.encWrite enc content).2 with h6 | ⟨e, h6⟩
    · cases h7 : w.writeFile a.output
        ((w.encrypt [key] none ⟨true, w.filepathBase a.input⟩ (selectPolicy a.compat)).1 ++
          ((w.encWrite enc content).1 ++ (w.encClose enc).1)) 0o400 <;>
      simp [main, mainBody, hopen, hdecode, hparse, hread, h5, h6, h7, Event.isEncWrite]
    · simp [main, mainBody, hopen, hdecode, hparse, hread, h5, h6, Event.isEncWrite]

/-- The default run: one `Encrypt` for the sample key, one `Write` of the two
plaintext bytes. -/
theorem encryptor_called_once_with_policy_witness :
    (main goodWorld sampleArgs).trace.filter Event.isEncrypt =
      [.encrypt [⟨[171, 205]⟩] none ⟨true, "msg.txt"⟩ (selectPolicy false)] ∧
    (main goodWorld sampleArgs).trace.filter Event.isEncWrite = [.encWrite 1 [104, 105]] :=
  ⟨(encryptor_called_once_with_policy goodWorld sampleArgs 3 [153, 1] ⟨[171, 205]⟩ [104, 105]
      rfl rfl rfl rfl).1,
   (encryptor_called_once_with_policy goodWorld sampleArgs 3 [153, 1] ⟨[171, 205]⟩ [104, 105]
      rfl rfl rfl rfl).2 1 rfl⟩

/-- C9: a run with status 0 is the straight line of the nine calls, each
made once and in the order load key, read plaintext, select policy, encrypt
(open, write), finalize (close), write output.  `ioutil.WriteFile` comes
after `enc.Close`, and its data is the buffer as the three encryptor calls
left it, which is also the buffer at the end of the run. -/
theorem successful_run_is_linear (w : World) (a : Args) (hok : (main w a).status = 0) :
    ∃ f body key content enc,
      w.osOpen a.key = .ok f ∧ w.armorDecode f = .ok body ∧ w.readEntity body = .ok key ∧
      w.readFile a.input = .ok content ∧
      (w.encrypt [key] none ⟨true, w.filepathBase a.input⟩ (selectPolicy a.compat)).2 =
        .ok enc ∧
      (main w a).trace =
        [.osOpen a.key, .armorDecode f, .readEntity body,
         .logPrintf "Using public key with fingerprint %X
" key.fingerprint,
         .readFile a.input,
         .logPrintln ["Encrypting plaintext file", a.input],
         .setConfig (selectPolicy a.compat),
         .encrypt [key] none ⟨true, w.filepathBase a.input⟩ (selectPolicy a.compat),
         .logPrintln ["Using hash", hashNameOf (selectPolicy a.compat)],
         .logPrintln ["Using cipher", cipherIdToString (selectPolicy a.compat).Cipher],
         .encWrite enc content,
         .encClose enc,
         .writeFile a.output (main w a).encrypted 0o400,
         .logPrintln ["Wrote ciphertext file", a.output],
         .fileClose f] ∧
      (main w a).encrypted =
        (w.encrypt [key] none ⟨true, w.filepathBase a.input⟩ (selectPolicy a.compat)).1 ++
          (w.encWrite enc content).1 ++ (w.encClose enc).1 ∧
      (main w a).trace.filterMap Event.step =
        [.loadKey, .loadKey, .loadKey, .readPlaintext, .selectPolicy, .encrypt, .encrypt,
         .finalize, .writeOutput] := by
  rcases main_cases w a with ⟨e, _, h⟩ | ⟨f, e, _, _, h⟩ | ⟨f, b, e, _, _, _, h⟩ |
    ⟨f, b, k, e, _, _, _, _, h⟩ | ⟨f, b, k, c, e, _, _, _, _, _, h⟩ |
    ⟨f, b, k, c, enc, e, _, _, _, _, _, _, h⟩ |
    ⟨f, b, k, c, enc, e, _, _, _, _, _, _, _, h⟩ |
    ⟨f, b, k, c, enc, h1, h2, h3, h4, h5, _, _, h⟩
  all_goals rw [h] at hok
  all_goals try (simp at hok; done)
  refine ⟨f, b, k, c, enc, h1, h2, h3, h4, h5, ?_, ?_, ?_⟩ <;> rw [h]
  · simp [loadedTrace, openTrace, writeTrace, hintsOf]
  · simp [closedBuffer, hintsOf]
  · simp [loadedTrace, openTrace, writeTrace, Event.step]

/-- The default run ends with status 0 and goes through the steps in order. -/
theorem successful_run_is_linear_witness :
    ∃ f body key content enc,
      goodWorld.osOpen sampleArgs.key = .ok f ∧ goodWorld.armorDecode f = .ok body ∧
      goodWorld.readEntity body = .ok key ∧
      goodWorld.readFile sampleArgs.input = .ok content ∧
      (goodWorld.encrypt [key] none ⟨true, goodWorld.filepathBase sampleArgs.input⟩
        (selectPolicy sampleArgs.compat)).2 = .ok enc ∧
      (main goodWorld sampleArgs).trace =
        [.osOpen sampleArgs.key, .armorDecode f, .readEntity body,
         .logPrintf "Using public key with fingerprint %X
" key.fingerprint,
         .readFile sampleArgs.input,
         .logPrintln ["Encrypting plaintext file", sampleArgs.input],
         .setConfig (selectPolicy sampleArgs.compat),
         .encrypt [key] none ⟨true, goodWorld.filepathBase sampleArgs.input⟩
           (selectPolicy sampleArgs.compat),
         .logPrintln ["Using hash", hashNameOf (selectPolicy sampleArgs.compat)],
         .logPrintln ["Using cipher", cipherIdToString (selectPolicy sampleArgs.compat).Cipher],
         .encWrite enc content,
         .encClose enc,
         .writeFile sampleArgs.output (main goodWorld sampleArgs).encrypted 0o400,
         .logPrintln ["Wrote ciphertext file", sampleArgs.output],
         .fileClose f] ∧
      (main goodWorld sampleArgs).encrypted =
        (goodWorld.encrypt [key] none ⟨true, goodWorld.filepathBase sampleArgs.input⟩
          (selectPolicy sampleArgs.compat)).1 ++
          (goodWorld.encWrite enc content).1 ++ (goodWorld.encClose enc).1 ∧
      (main goodWorld sampleArgs).trace.filterMap Event.step =
        [.loadKey, .loadKey, .loadKey, .readPlaintext, .selectPolicy, .encrypt, .encrypt,
         .finalize, .writeOutput] :=
  successful_run_is_linear goodWorld sampleArgs rfl

end AutoPGP
